import Mathlib

/-!
Verification development for the omni-db resilience-orchestration core.

Shallow embedding of the JavaScript sources:
- `CircuitBreaker` mirrors the validated circuit breaker
  (src/unnamed/part_011), a closed/open/half-open state machine with a
  failure counter, a half-open success counter and a lazy next-attempt
  timestamp.  Time is an explicit `Nat` argument (milliseconds) replacing
  the ambient clock.  JavaScript truthiness of the stored
  `nextAttemptTime` is modelled faithfully: a stored `0` is falsy and
  never triggers the lazy transition.
- `FailoverRouter.resolve` mirrors src/src/failover-router.js.
- `parseDuration` mirrors the validated parser in
  src/src/failover-router.js (lines 385-416).
- `Orchestrator` mirrors the fixed orchestrator in src/unnamed/part_009
  (second definition, lines 436-1033): resolve-once path with failover
  cache, circuit check of the resolved name, health-check cycle and the
  synchronously-delivered notification listeners.  JavaScript `Map`s are
  association lists whose `set` conses a fresh binding in front (lookup
  sees the newest binding); exceptions are explicit `Except` results that
  still carry the mutated state, matching in-place mutation before a
  throw.
-/

/-- Health status of a resource: `'healthy' | 'degraded' | 'unhealthy'`. -/
inductive HealthStatus where
  | healthy
  | degraded
  | unhealthy
deriving DecidableEq, Repr

/-- Circuit state: `'closed' | 'open' | 'half-open'`. -/
inductive CircuitState where
  | closed
  | «open»
  | halfOpen
deriving DecidableEq, Repr

/-- State of one circuit breaker instance (src/unnamed/part_011).
`nextAttemptTime = none` models the JavaScript `null`. -/
structure CircuitBreaker where
  state : CircuitState
  failures : Nat
  successCount : Nat
  nextAttemptTime : Option Nat
  threshold : Nat
  resetTimeout : Nat
  halfOpenSuccesses : Nat
deriving DecidableEq, Repr

namespace CircuitBreaker

/-- JavaScript truthiness guard `this.#nextAttemptTime && Date.now() >= this.#nextAttemptTime`:
true when the stored timestamp is non-null, non-zero, and has passed. -/
def nextAttemptDue (now : Nat) (t : Option Nat) : Bool :=
  match t with
  | some v => v != 0 && now ≥ v
  | none => false

/-- Mirrors `#tryTransitionToHalfOpen` (part_011 lines 126-131): lazily move an
expired open circuit to half-open, resetting the success counter. -/
def tryTransitionToHalfOpen (now : Nat) (cb : CircuitBreaker) : CircuitBreaker :=
  if cb.state = CircuitState.«open» && nextAttemptDue now cb.nextAttemptTime then
    { cb with state := CircuitState.halfOpen, successCount := 0 }
  else cb

/-- The `state` getter (part_011 lines 118-121): performs the lazy
transition, then reports the state.  Returns the mutated breaker together
with the observed state. -/
def stateGet (now : Nat) (cb : CircuitBreaker) : CircuitBreaker × CircuitState :=
  let cb' := tryTransitionToHalfOpen now cb
  (cb', cb'.state)

/-- Mirrors `canExecute()` (part_011 lines 145-148): triggers the lazy transition
via the state getter, then permits execution in closed or half-open. -/
def canExecute (now : Nat) (cb : CircuitBreaker) : CircuitBreaker × Bool :=
  let (cb', s) := stateGet now cb
  (cb', s = CircuitState.closed || s = CircuitState.halfOpen)

/-- Mirrors `#onSuccess` (part_011 lines 189-198): zero the failure counter; in
half-open, count the success and close once the configured count is
reached. -/
def onSuccess (cb : CircuitBreaker) : CircuitBreaker :=
  let cb := { cb with failures := 0 }
  if cb.state = CircuitState.halfOpen then
    let sc := cb.successCount + 1
    if sc ≥ cb.halfOpenSuccesses then
      { cb with state := CircuitState.closed, successCount := sc }
    else
      { cb with successCount := sc }
  else cb

/-- Mirrors `#onFailure` (part_011 lines 204-222): count the failure; a failure in
half-open reopens immediately; reaching the threshold opens.  Returns the
mutated breaker and whether the circuit opened. -/
def onFailure (now : Nat) (cb : CircuitBreaker) : CircuitBreaker × Bool :=
  let cb := { cb with failures := cb.failures + 1 }
  if cb.state = CircuitState.halfOpen then
    ({ cb with state := CircuitState.«open»,
               nextAttemptTime := some (now + cb.resetTimeout) }, true)
  else if cb.failures ≥ cb.threshold then
    ({ cb with state := CircuitState.«open»,
               nextAttemptTime := some (now + cb.resetTimeout) }, true)
  else
    (cb, false)

/-- Mirrors `reset()` (part_011 lines 170-175): force the circuit closed. -/
def resetCB (cb : CircuitBreaker) : CircuitBreaker :=
  { cb with state := CircuitState.closed, failures := 0, successCount := 0,
            nextAttemptTime := none }

/-- Mirrors `open()` (part_011 lines 181-184): force the circuit open with a fresh
next-attempt time. -/
def forceOpen (now : Nat) (cb : CircuitBreaker) : CircuitBreaker :=
  { cb with state := CircuitState.«open»,
            nextAttemptTime := some (now + cb.resetTimeout) }

end CircuitBreaker

namespace FailoverRouter

/-- Mirrors `FailoverRouter.resolve` (src/src/failover-router.js lines 54-77).
`fmap` is the primary→backup mapping, `getStatus` the status lookup
(`undefined` is `none`).  Pure: returns the resolved name and the
`isFailover` flag. -/
def resolve (fmap : String → Option String) (name : String)
    (getStatus : String → Option HealthStatus) : String × Bool :=
  match getStatus name with
  | some HealthStatus.healthy => (name, false)
  | none => (name, false)
  | some _ =>
    match fmap name with
    | none => (name, false)
    | some backup =>
      if getStatus backup = some HealthStatus.unhealthy then
        (name, false)
      else
        (backup, true)

end FailoverRouter

/-- Numeric value of a digit string, as computed by `parseInt(digits, 10)`
on an all-digit match. -/
def digitsVal (cs : List Char) : Nat :=
  cs.foldl (fun acc c => acc * 10 + (c.toNat - 48)) 0

/-- The digit run matched by `(\d+)` at the start of the string. -/
def durDigits (cs : List Char) : List Char :=
  cs.takeWhile Char.isDigit

/-- What follows the digit run; the anchored regex requires it to be
exactly one of the unit suffixes. -/
def durRest (cs : List Char) : List Char :=
  cs.dropWhile Char.isDigit

/-- Millisecond multiplier of a unit suffix (`multipliers` table in the
source); `none` when the remainder is not one of `ms`, `s`, `m`, `h`. -/
def unitMultOf (rest : List Char) : Option Nat :=
  if rest = ['m', 's'] then some 1
  else if rest = ['s'] then some 1000
  else if rest = ['m'] then some (60 * 1000)
  else if rest = ['h'] then some (60 * 60 * 1000)
  else none

/-- The validated `parseDuration` (src/src/failover-router.js lines
385-416).  The regex `(\d+)(ms|s|m|h)` anchored at both ends is modelled
by splitting the character list at the first non-digit: the prefix must be
a non-empty digit run and the remainder exactly one of the four unit
suffixes.  Over `Nat`, the source's `value <= 0` check is `value = 0`.
Errors (thrown `Error`s) are `Except.error` with the message. -/
def parseDuration (s : String) : Except String Nat :=
  match unitMultOf (durRest s.toList) with
  | none => Except.error "Invalid duration format"
  | some mult =>
    if durDigits s.toList = [] then Except.error "Invalid duration format"
    else if digitsVal (durDigits s.toList) = 0 then
      Except.error "Duration must be positive"
    else if durRest s.toList = ['h'] && digitsVal (durDigits s.toList) > 24 then
      Except.error "Duration too large. Maximum is 24 hours."
    else
      Except.ok (digitsVal (durDigits s.toList) * mult)

/-- Notifications emitted by the orchestrator (part_009), with the payload
fields the claims inspect.  `circuitOpen`/`circuitClose` carry the
optional `reason`; `healthChanged` carries the previous status
(`undefined` = `none`) and the current one. -/
inductive Event where
  | failover (primary backup : String) (ts : Nat)
  | recovery (primary : String) (backup : Option String) (ts : Nat)
  | circuitOpen (name : String) (reason : Option String) (ts : Nat)
  | circuitClose (name : String) (reason : Option String) (ts : Nat)
  | healthChanged (name : String) (previous : Option HealthStatus)
      (current : HealthStatus) (ts : Nat)
  | errorEv (name : Option String) (message : String) (ts : Nat)
deriving DecidableEq, Repr

/-- Mutable state of the fixed `Orchestrator` (part_009 lines 436-1033).
Handles are opaque tokens (`Nat`).  Each JavaScript `Map` is an
association list; `Map.get` is `List.lookup`, `Map.set` conses a fresh
binding in front. -/
structure Orchestrator where
  registry : List (String × Nat)
  statuses : List (String × HealthStatus)
  circuits : List (String × CircuitBreaker)
  failoverMap : List (String × String)
  activeFailovers : List String
  failoverCache : List (String × (String × Bool))
deriving DecidableEq, Repr

namespace Orchestrator

/-- Mirrors `HealthMonitor.setStatus` (failover-router.js lines 503-509): update
the binding only when the name is already registered. -/
def setStatusA (name : String) (status : HealthStatus)
    (l : List (String × HealthStatus)) : List (String × HealthStatus) :=
  l.map (fun p => if p.1 = name then (p.1, status) else p)

/-- Mirrors `#resolveAndEmit` (part_009 lines 703-742): consult the resolution
cache, on a miss resolve via the failover router and populate the cache,
check the circuit breaker of the resolved name (throwing if it blocks),
then perform the once-per-edge failover/recovery bookkeeping.  The result
carries the thrown error or the resolved name, the mutated state, and the
events emitted. -/
def resolveAndEmit (now : Nat) (st : Orchestrator) (name : String) :
    Except String String × Orchestrator × List Event :=
  let (resolved, st1) :=
    match st.failoverCache.lookup name with
    | some r => (r, st)
    | none =>
      let r := FailoverRouter.resolve (fun n => st.failoverMap.lookup n) name
        (fun n => st.statuses.lookup n)
      (r, { st with failoverCache := (name, r) :: st.failoverCache })
  let (st2, allowed) :=
    match st1.circuits.lookup resolved.1 with
    | none => (st1, true)
    | some c =>
      let (c', ok) := CircuitBreaker.canExecute now c
      ({ st1 with circuits := (resolved.1, c') :: st1.circuits }, ok)
  if !allowed then
    (Except.error ("Circuit open for " ++ resolved.1), st2, [])
  else if resolved.2 then
    if st2.activeFailovers.contains name then
      (Except.ok resolved.1, st2, [])
    else
      (Except.ok resolved.1,
        { st2 with activeFailovers := name :: st2.activeFailovers },
        [Event.failover name resolved.1 now])
  else if st2.activeFailovers.contains name then
    (Except.ok resolved.1,
      { st2 with activeFailovers := st2.activeFailovers.erase name },
      [Event.recovery name (st2.failoverMap.lookup name) now])
  else
    (Except.ok resolved.1, st2, [])

/-- Mirrors `get(name)` (part_009 lines 692-695): resolve (possibly throwing) and
read the registry at the resolved name (`undefined` = `none`). -/
def getO (now : Nat) (st : Orchestrator) (name : String) :
    Except String (Option Nat) × Orchestrator × List Event :=
  match resolveAndEmit now st name with
  | (Except.error e, st', evs) => (Except.error e, st', evs)
  | (Except.ok rn, st', evs) => (Except.ok (st'.registry.lookup rn), st', evs)

/-- Outcome of one `execute(name, fn)` call: the propagated result, the
post state, the events, the name whose handle was passed to `fn` (`none`
when `fn` never ran), and the name of the circuit breaker that recorded
the outcome (`none` when no breaker recorded it). -/
structure ExecOutcome where
  result : Except String Unit
  state : Orchestrator
  events : List Event
  served : Option String
  recorded : Option String
deriving Repr

/-- Mirrors `execute(name, fn)` (part_009 lines 789-814): resolve exactly once via
`resolveAndEmit`, fetch the handle, and run `fn` through the circuit
breaker of the resolved name when one exists.  `opSucceeds` abstracts the
outcome of the awaited caller operation; `interfere` is an arbitrary state
transformation applied at the single suspension point (the `await` of
`fn`), modelling concurrent health transitions; `now2` is the clock when
the outcome is recorded.  Mirrors `CircuitBreaker.execute` (part_011
lines 95-112) inline: lazy transition, fast-fail when open, then record
success or failure on the breaker stored at the resolved name. -/
def executeO (now now2 : Nat) (st : Orchestrator) (name : String)
    (opSucceeds : Bool) (interfere : Orchestrator → Orchestrator) : ExecOutcome :=
  match resolveAndEmit now st name with
  | (Except.error e, st1, evs) =>
    { result := Except.error e, state := st1, events := evs,
      served := none, recorded := none }
  | (Except.ok rn, st1, evs) =>
    match st1.registry.lookup rn with
    | none =>
      { result := Except.error ("Connection " ++ rn ++ " is unavailable"),
        state := st1, events := evs, served := none, recorded := none }
    | some _ =>
      match st1.circuits.lookup rn with
      | none =>
        let st2 := interfere st1
        { result := if opSucceeds then Except.ok () else Except.error "op failed",
          state := st2, events := evs, served := some rn, recorded := none }
      | some c0 =>
        let c1 := CircuitBreaker.tryTransitionToHalfOpen now c0
        if c1.state = CircuitState.«open» then
          { result := Except.error "Circuit breaker is OPEN",
            state := { st1 with circuits := (rn, c1) :: st1.circuits },
            events := evs, served := none, recorded := none }
        else
          let stMid := interfere { st1 with circuits := (rn, c1) :: st1.circuits }
          let c2 := (stMid.circuits.lookup rn).getD c1
          if opSucceeds then
            { result := Except.ok (),
              state := { stMid with
                circuits := (rn, CircuitBreaker.onSuccess c2) :: stMid.circuits },
              events := evs, served := some rn, recorded := some rn }
          else
            { result := Except.error "op failed",
              state := { stMid with
                circuits := (rn, (CircuitBreaker.onFailure now2 c2).1) :: stMid.circuits },
              events := evs, served := some rn, recorded := some rn }

/-- Circuit synchronization inside `#runHealthChecks` (part_009 lines
962-986), run only on a status transition.  The source has two sequential
`if` blocks guarded by `newStatus === 'unhealthy'` and
`newStatus === 'healthy'`; at most one can fire, so they are merged into
one conditional.  Reading `circuit.state` goes through the mutating
getter, so the lazily-transitioned breaker is stored back even when no
force-open/reset happens. -/
def syncCircuit (now : Nat) (circuits : List (String × CircuitBreaker))
    (name : String) (checkStatus : HealthStatus) :
    List (String × CircuitBreaker) × List Event :=
  if checkStatus = HealthStatus.unhealthy then
    match circuits.lookup name with
    | some c =>
      let c1 := CircuitBreaker.tryTransitionToHalfOpen now c
      if c1.state ≠ CircuitState.«open» then
        ((name, CircuitBreaker.forceOpen now c1) :: circuits,
          [Event.circuitOpen name (some "health-check-failed") now])
      else
        ((name, c1) :: circuits, [])
    | none => (circuits, [])
  else if checkStatus = HealthStatus.healthy then
    match circuits.lookup name with
    | some c =>
      let c1 := CircuitBreaker.tryTransitionToHalfOpen now c
      if c1.state = CircuitState.«open» then
        ((name, CircuitBreaker.resetCB c1) :: circuits,
          [Event.circuitClose name (some "health-recovered") now])
      else
        ((name, c1) :: circuits, [])
    | none => (circuits, [])
  else (circuits, [])

/-- The per-resource body of `#runHealthChecks` (part_009 lines 951-1005):
given the final outcome of the health probe (`checkStatus`, with
`checkErr` the error carried by an ultimately-unhealthy result), update
the status on a transition, synchronize the circuit breaker (force open on
`unhealthy`, reset on `healthy` while observed open), and emit the
notifications.  The `health:changed` emission clears the failover cache:
the listener registered in the constructor (part_009 lines 547-549) runs
synchronously inside `emit`. -/
def runHealthCheckFor (now : Nat) (st : Orchestrator) (name : String)
    (checkStatus : HealthStatus) (checkErr : Option String) :
    Orchestrator × List Event :=
  let previous := st.statuses.lookup name
  let (st1, evs1) :=
    if some checkStatus ≠ previous then
      let sync := syncCircuit now st.circuits name checkStatus
      ({ st with statuses := setStatusA name checkStatus st.statuses,
                 circuits := sync.1,
                 failoverCache := [] },
        sync.2 ++ [Event.healthChanged name previous checkStatus now])
    else (st, [])
  match checkErr with
  | some e => (st1, evs1 ++ [Event.errorEv (some name) e now])
  | none => (st1, evs1)

/-- The orchestrator state built by the constructor (part_009 lines
509-577): every connection is registered in the registry and the health
monitor (status `healthy`), a circuit breaker per connection when circuit
protection is configured, and empty failover bookkeeping. -/
def initState (connections : List (String × Nat))
    (failover : List (String × String)) (cbConfig : Option CircuitBreaker) :
    Orchestrator :=
  { registry := connections,
    statuses := connections.map (fun p => (p.1, HealthStatus.healthy)),
    circuits :=
      match cbConfig with
      | some cb => connections.map (fun p => (p.1, cb))
      | none => [],
    failoverMap := failover,
    activeFailovers := [],
    failoverCache := [] }

end Orchestrator

lemma lookup_eq_none_of_keys_ne {α : Type} (name : String)
    (l : List (String × α)) (h : ∀ p ∈ l, p.1 ≠ name) :
    l.lookup name = none := by
  induction l with
  | nil => rfl
  | cons p l ih =>
    have hp : p.1 ≠ name := h p (List.mem_cons_self p l)
    have hb : (name == p.1) = false := by
      simp [Ne.symm hp]
    simp [List.lookup, hb, ih (fun q hq => h q (List.mem_cons_of_mem p hq))]

lemma lookup_cons_shadow {α : Type} (k : String) (v : α)
    (l : List (String × α)) (h : l.lookup k = some v) :
    ∀ n, ((k, v) :: l).lookup n = l.lookup n := by
  intro n
  by_cases hn : n = k
  · subst hn
    simp [List.lookup, h]
  · have hb : (n == k) = false := by simp [hn]
    simp [List.lookup, hb]

/-- Iterated `#onSuccess`: `succN k cb` records `k` consecutive successes. -/
def succN : Nat → CircuitBreaker → CircuitBreaker
  | 0, cb => cb
  | k + 1, cb => CircuitBreaker.onSuccess (succN k cb)

lemma succN_halfOpen_lt (cb : CircuitBreaker) (h : cb.state = CircuitState.halfOpen)
    (h0 : cb.successCount = 0) :
    ∀ k, k < cb.halfOpenSuccesses →
      (succN k cb).state = CircuitState.halfOpen ∧
      (succN k cb).successCount = k ∧
      (succN k cb).halfOpenSuccesses = cb.halfOpenSuccesses := by
  intro k
  induction k with
  | zero => intro _; exact ⟨h, h0, rfl⟩
  | succ n ih =>
    intro hlt
    obtain ⟨hs, hc, hh⟩ := ih (Nat.lt_of_succ_lt hlt)
    simp only [succN, CircuitBreaker.onSuccess, hs, if_pos rfl, hc, hh]
    have : ¬ (n + 1 ≥ cb.halfOpenSuccesses) := Nat.not_le_of_lt hlt
    simp [this]

/-- C1: `resolve(name, statusLookup)` returns the backup with
`isFailover = true` exactly when a mapping exists, the name has a status
other than healthy, and the backup's status is not unhealthy; in every
other case it returns the requested name with `isFailover = false`. -/
theorem resolve_backup_iff (fmap : String → Option String)
    (getStatus : String → Option HealthStatus) (name : String) :
    ((FailoverRouter.resolve fmap name getStatus).2 = true ↔
      ∃ b s, fmap name = some b ∧ getStatus name = some s ∧
        s ≠ HealthStatus.healthy ∧ getStatus b ≠ some HealthStatus.unhealthy)
    ∧ ((FailoverRouter.resolve fmap name getStatus).2 = true →
        fmap name = some (FailoverRouter.resolve fmap name getStatus).1)
    ∧ ((FailoverRouter.resolve fmap name getStatus).2 = false →
        (FailoverRouter.resolve fmap name getStatus).1 = name) := by
  unfold FailoverRouter.resolve
  cases hs : getStatus name with
  | none => simp [hs]
  | some s =>
    cases s with
    | healthy => simp
    | degraded =>
      cases hb : fmap name with
      | none => simp
      | some b =>
        by_cases hbs : getStatus b = some HealthStatus.unhealthy
        · simp_all
        · simp_all
    | unhealthy =>
      cases hb : fmap name with
      | none => simp
      | some b =>
        by_cases hbs : getStatus b = some HealthStatus.unhealthy
        · simp_all
        · simp_all

theorem resolve_backup_iff_witness :
    (FailoverRouter.resolve (fun n => if n = "p" then some "b" else none) "p"
      (fun n => if n = "p" then some HealthStatus.unhealthy
                else some HealthStatus.healthy)).2 = true := by
  have h := resolve_backup_iff (fun n => if n = "p" then some "b" else none)
    (fun n => if n = "p" then some HealthStatus.unhealthy
              else some HealthStatus.healthy) "p"
  exact h.1.mpr ⟨"b", HealthStatus.unhealthy, by decide, by decide, by decide,
    by decide⟩

/-- C2: while closed, a recorded failure opens the circuit exactly when
the counter reaches the threshold, setting the next-attempt time to
`now + resetTimeout`; a recorded failure below the threshold leaves the
circuit closed with the counter incremented; a recorded success resets
the failure counter to zero and leaves the circuit closed. -/
theorem closed_opens_iff_threshold (cb : CircuitBreaker) (now : Nat)
    (hclosed : cb.state = CircuitState.closed) :
    ((CircuitBreaker.onFailure now cb).2 = true ↔
       cb.failures + 1 ≥ cb.threshold)
    ∧ ((CircuitBreaker.onFailure now cb).2 = true →
        (CircuitBreaker.onFailure now cb).1.state = CircuitState.«open» ∧
        (CircuitBreaker.onFailure now cb).1.nextAttemptTime =
          some (now + cb.resetTimeout))
    ∧ ((CircuitBreaker.onFailure now cb).2 = false →
        (CircuitBreaker.onFailure now cb).1.state = CircuitState.closed ∧
        (CircuitBreaker.onFailure now cb).1.failures = cb.failures + 1)
    ∧ (CircuitBreaker.onSuccess cb).failures = 0
    ∧ (CircuitBreaker.onSuccess cb).state = CircuitState.closed := by
  unfold CircuitBreaker.onFailure CircuitBreaker.onSuccess
  simp only [hclosed]
  by_cases hth : cb.failures + 1 ≥ cb.threshold
  · simp [hth, hclosed]
  · simp [hth, hclosed]

theorem closed_opens_iff_threshold_witness :
    (CircuitBreaker.onFailure 7
      ⟨CircuitState.closed, 4, 0, none, 5, 100, 2⟩).2 = true := by
  have h := closed_opens_iff_threshold
    ⟨CircuitState.closed, 4, 0, none, 5, 100, 2⟩ 7 rfl
  exact h.1.mpr (by decide)

/-- C6: entering half-open with a zeroed success counter, fewer than
`halfOpenSuccesses` recorded successes leave the circuit half-open, the
`halfOpenSuccesses`-th closes it, and a single recorded failure while
half-open immediately reopens with next-attempt time
`now + resetTimeout`. -/
theorem halfOpen_close_after_successes (cb : CircuitBreaker) (now : Nat)
    (h : cb.state = CircuitState.halfOpen) (h0 : cb.successCount = 0)
    (h1 : 1 ≤ cb.halfOpenSuccesses) :
    (∀ k, k < cb.halfOpenSuccesses →
      (succN k cb).state = CircuitState.halfOpen)
    ∧ (succN cb.halfOpenSuccesses cb).state = CircuitState.closed
    ∧ (CircuitBreaker.onFailure now cb).2 = true
    ∧ (CircuitBreaker.onFailure now cb).1.state = CircuitState.«open»
    ∧ (CircuitBreaker.onFailure now cb).1.nextAttemptTime =
        some (now + cb.resetTimeout) := by
  refine ⟨fun k hk => (succN_halfOpen_lt cb h h0 k hk).1, ?_, ?_, ?_, ?_⟩
  · obtain ⟨n, hn⟩ : ∃ n, cb.halfOpenSuccesses = n + 1 :=
      ⟨cb.halfOpenSuccesses - 1, by omega⟩
    obtain ⟨hs, hc, hh⟩ := succN_halfOpen_lt cb h h0 n (by omega)
    rw [hn]
    simp only [succN, CircuitBreaker.onSuccess, hs, if_pos rfl, hc, hh]
    have : n + 1 ≥ cb.halfOpenSuccesses := by omega
    simp [this]
  · unfold CircuitBreaker.onFailure; simp [h]
  · unfold CircuitBreaker.onFailure; simp [h]
  · unfold CircuitBreaker.onFailure; simp [h]

theorem halfOpen_close_after_successes_witness :
    (succN 2 ⟨CircuitState.halfOpen, 0, 0, some 50, 5, 100, 2⟩).state =
      CircuitState.closed := by
  have h := halfOpen_close_after_successes
    ⟨CircuitState.halfOpen, 0, 0, some 50, 5, 100, 2⟩ 0 rfl rfl (by decide)
  exact h.2.1

/-- C7: the open-to-half-open transition is lazy.  A circuit forced open
at time `t0` reports `open` (and blocks) at every query strictly before
`t0 + resetTimeout`, and the first state query at or after that instant
reports `half-open` with `canExecute()` true. -/
theorem open_lazy_halfOpen (cb : CircuitBreaker) (t0 now : Nat)
    (hpos : 0 < t0 + cb.resetTimeout) :
    (now < t0 + cb.resetTimeout →
      (CircuitBreaker.stateGet now (CircuitBreaker.forceOpen t0 cb)).2 =
        CircuitState.«open» ∧
      (CircuitBreaker.canExecute now (CircuitBreaker.forceOpen t0 cb)).2 = false)
    ∧ (t0 + cb.resetTimeout ≤ now →
      (CircuitBreaker.stateGet now (CircuitBreaker.forceOpen t0 cb)).2 =
        CircuitState.halfOpen ∧
      (CircuitBreaker.canExecute now (CircuitBreaker.forceOpen t0 cb)).2 = true) := by
  unfold CircuitBreaker.canExecute CircuitBreaker.stateGet
    CircuitBreaker.tryTransitionToHalfOpen CircuitBreaker.forceOpen
    CircuitBreaker.nextAttemptDue
  constructor
  · intro hlt
    have hn : ¬ (now ≥ t0 + cb.resetTimeout) := Nat.not_le_of_lt hlt
    simp [hn]
  · intro hge
    have hne : t0 + cb.resetTimeout ≠ 0 := Nat.pos_iff_ne_zero.mp hpos
    simp [hge, hne]

lemma takeWhile_digits_append (ds u : List Char) (hd : ∀ c ∈ ds, c.isDigit)
    (hu : ∀ c, u.head? = some c → c.isDigit = false) :
    (ds ++ u).takeWhile Char.isDigit = ds ∧
    (ds ++ u).dropWhile Char.isDigit = u := by
  induction ds with
  | nil =>
    simp only [List.nil_append]
    cases u with
    | nil => simp [List.takeWhile, List.dropWhile]
    | cons c t =>
      have hc : c.isDigit = false := hu c rfl
      simp [List.takeWhile, List.dropWhile, hc]
  | cons c cs ih =>
    have hc : c.isDigit := hd c (List.mem_cons_self c cs)
    have ih' := ih (fun x hx => hd x (List.mem_cons_of_mem c hx))
    simp [List.takeWhile, List.dropWhile, hc, ih'.1, ih'.2]

/-- Written from the spec's words, for the refinement conjuncts of C9:
a string matches the duration grammar `<positive integer><ms|s|m|h>`
(ignoring the positivity of the integer, checked separately) when it is a
non-empty digit run followed by exactly one of the four unit suffixes. -/
def specMatchesGrammar (s : String) : Prop :=
  ∃ ds u, s.toList = ds ++ u ∧ ds ≠ [] ∧ (∀ c ∈ ds, c.isDigit) ∧
    (u = ['m', 's'] ∨ u = ['s'] ∨ u = ['m'] ∨ u = ['h'])

lemma unit_head_not_digit (u : List Char)
    (h : u = ['m', 's'] ∨ u = ['s'] ∨ u = ['m'] ∨ u = ['h']) :
    ∀ c, u.head? = some c → c.isDigit = false := by
  rcases h with h | h | h | h <;> subst h <;> intro c hc <;>
    simp only [List.head?_cons, Option.some.injEq] at hc <;>
      subst hc <;> decide

/-- Evaluation of `parseDuration` on a string split as a digit run
followed by a non-digit remainder: the regex split is exactly that
decomposition. -/
lemma parseDuration_append_eval (ds u : List Char) (hne : ds ≠ [])
    (hd : ∀ c ∈ ds, c.isDigit)
    (hu : ∀ c, u.head? = some c → c.isDigit = false) :
    parseDuration (String.mk (ds ++ u)) =
      (match unitMultOf u with
       | none => Except.error "Invalid duration format"
       | some mult =>
         if digitsVal ds = 0 then Except.error "Duration must be positive"
         else if u = ['h'] && digitsVal ds > 24 then
           Except.error "Duration too large. Maximum is 24 hours."
         else Except.ok (digitsVal ds * mult)) := by
  obtain ⟨ht, hdr⟩ := takeWhile_digits_append ds u hd hu
  have htl : (String.mk (ds ++ u)).toList = ds ++ u := rfl
  unfold parseDuration durDigits durRest
  rw [htl, ht, hdr]
  simp [hne]

/-- C9 counterexample: `'1500m'` denotes 1500 minutes = 25 hours, which
exceeds 24 hours (86400000 ms), yet `parseDuration` accepts it. -/
theorem parseDuration_over24h_accepted :
    parseDuration "1500m" = Except.ok 90000000 ∧
    24 * (60 * 60 * 1000) < 90000000 := by
  constructor
  · rfl
  · decide

/-- C9 (amended): `parseDuration('30s') = 30000`, `parseDuration('1m') =
60000`, `'0s'` and `'25h'` raise; every accepted duration is strictly
positive; every string failing the grammar
`<positive integer><ms|s|m|h>` is rejected; every grammar-matching string
whose integer is zero is rejected; every `ms`/`s`/`m` duration with a
positive value is accepted — with no upper bound, so durations exceeding
24 hours in those units are accepted; and a duration written with unit
`h` is rejected whenever its hour value exceeds 24. -/
theorem parseDuration_spec :
    parseDuration "30s" = Except.ok 30000
    ∧ parseDuration "1m" = Except.ok 60000
    ∧ parseDuration "0s" = Except.error "Duration must be positive"
    ∧ parseDuration "25h" = Except.error "Duration too large. Maximum is 24 hours."
    ∧ (∀ s v, parseDuration s = Except.ok v → 0 < v)
    ∧ (∀ s, ¬ specMatchesGrammar s →
        parseDuration s = Except.error "Invalid duration format")
    ∧ (∀ (ds u : List Char), ds ≠ [] → (∀ c ∈ ds, c.isDigit) →
        digitsVal ds = 0 →
        (u = ['m', 's'] ∨ u = ['s'] ∨ u = ['m'] ∨ u = ['h']) →
        parseDuration (String.mk (ds ++ u)) =
          Except.error "Duration must be positive")
    ∧ (∀ ds : List Char, ds ≠ [] → (∀ c ∈ ds, c.isDigit) → 0 < digitsVal ds →
        parseDuration (String.mk (ds ++ ['m', 's'])) =
          Except.ok (digitsVal ds * 1)
        ∧ parseDuration (String.mk (ds ++ ['s'])) =
          Except.ok (digitsVal ds * 1000)
        ∧ parseDuration (String.mk (ds ++ ['m'])) =
          Except.ok (digitsVal ds * (60 * 1000)))
    ∧ (∀ ds : List Char, ds ≠ [] → (∀ c ∈ ds, c.isDigit) → 24 < digitsVal ds →
        parseDuration (String.mk (ds ++ ['h'])) =
          Except.error "Duration too large. Maximum is 24 hours.") := by
  refine ⟨by rfl, by rfl, by rfl, by rfl, ?_, ?_, ?_, ?_, ?_⟩
  · intro s v h
    unfold parseDuration at h
    split at h
    · exact absurd h (by simp)
    · rename_i mult hmult
      split at h
      · exact absurd h (by simp)
      · split at h
        · exact absurd h (by simp)
        · split at h
          · exact absurd h (by simp)
          · rename_i hnz _
            have hv : digitsVal (durDigits s.toList) * mult = v := by
              simpa using h
            have hm : 0 < mult := by
              unfold unitMultOf at hmult
              split at hmult
              · simp only [Option.some.injEq] at hmult; omega
              · split at hmult
                · simp only [Option.some.injEq] at hmult; omega
                · split at hmult
                  · simp only [Option.some.injEq] at hmult; omega
                  · split at hmult
                    · simp only [Option.some.injEq] at hmult; omega
                    · exact absurd hmult (by simp)
            have hdz : 0 < digitsVal (durDigits s.toList) :=
              Nat.pos_of_ne_zero hnz
            calc 0 < digitsVal (durDigits s.toList) * mult :=
                  Nat.mul_pos hdz hm
              _ = v := hv
  · intro s hng
    unfold parseDuration
    cases hm : unitMultOf (durRest s.toList) with
    | none => rfl
    | some mult =>
      by_cases hdg : durDigits s.toList = []
      · dsimp only
        rw [if_pos hdg]
      · exfalso
        apply hng
        refine ⟨durDigits s.toList, durRest s.toList, ?_, hdg, ?_, ?_⟩
        · unfold durDigits durRest
          exact (List.takeWhile_append_dropWhile Char.isDigit s.toList).symm
        · intro c hc
          exact List.mem_takeWhile_imp hc
        · unfold unitMultOf at hm
          split at hm
          · simp_all
          · split at hm
            · simp_all
            · split at hm
              · simp_all
              · split at hm
                · simp_all
                · exact absurd hm (by simp)
  · intro ds u hne hd hz hu4
    rw [parseDuration_append_eval ds u hne hd (unit_head_not_digit u hu4)]
    rcases hu4 with h | h | h | h <;> subst h <;> simp [unitMultOf, hz]
  · intro ds hne hd hpos
    have hz : digitsVal ds ≠ 0 := Nat.pos_iff_ne_zero.mp hpos
    refine ⟨?_, ?_, ?_⟩
    · rw [parseDuration_append_eval ds ['m', 's'] hne hd
        (unit_head_not_digit _ (Or.inl rfl))]
      simp [unitMultOf, hz]
    · rw [parseDuration_append_eval ds ['s'] hne hd
        (unit_head_not_digit _ (Or.inr (Or.inl rfl)))]
      simp [unitMultOf, hz]
    · rw [parseDuration_append_eval ds ['m'] hne hd
        (unit_head_not_digit _ (Or.inr (Or.inr (Or.inl rfl))))]
      simp [unitMultOf, hz]
  · intro ds hne hd hval
    have hz : digitsVal ds ≠ 0 := by omega
    rw [parseDuration_append_eval ds ['h'] hne hd
      (unit_head_not_digit _ (Or.inr (Or.inr (Or.inr rfl))))]
    simp [unitMultOf, hz, hval]

/-- C10: for a name that is not among the registered connection names —
so the registry, health monitor, circuit map and resolution cache have no
binding for it, as the constructor establishes — `get(name)` returns
`undefined` without raising, regardless of failover configuration. -/
theorem get_unregistered_returns_undefined :
    (∀ (now : Nat) (st : Orchestrator) (name : String),
      st.registry.lookup name = none →
      st.statuses.lookup name = none →
      st.circuits.lookup name = none →
      st.failoverCache.lookup name = none →
      (Orchestrator.getO now st name).1 = Except.ok none)
    ∧ (∀ (conns : List (String × Nat)) (fo : List (String × String))
        (cb : Option CircuitBreaker) (name : String),
        (∀ p ∈ conns, p.1 ≠ name) →
        (Orchestrator.initState conns fo cb).registry.lookup name = none ∧
        (Orchestrator.initState conns fo cb).statuses.lookup name = none ∧
        (Orchestrator.initState conns fo cb).circuits.lookup name = none ∧
        (Orchestrator.initState conns fo cb).failoverCache.lookup name = none) := by
  constructor
  · intro now st name hreg hstat hcirc hcache
    by_cases hcont : name ∈ st.activeFailovers
    · simp [Orchestrator.getO, Orchestrator.resolveAndEmit, FailoverRouter.resolve,
        hcache, hstat, hcirc, hreg, hcont]
    · simp [Orchestrator.getO, Orchestrator.resolveAndEmit, FailoverRouter.resolve,
        hcache, hstat, hcirc, hreg, hcont]
  · intro conns fo cb name h
    refine ⟨lookup_eq_none_of_keys_ne name conns h, ?_, ?_, rfl⟩
    · exact lookup_eq_none_of_keys_ne name _
        (by simp only [Orchestrator.initState, List.mem_map]
            rintro q ⟨p, hp, rfl⟩
            exact h p hp)
    · cases cb with
      | none => rfl
      | some c =>
        exact lookup_eq_none_of_keys_ne name _
          (by simp only [Orchestrator.initState, List.mem_map]
              rintro q ⟨p, hp, rfl⟩
              exact h p hp)

theorem get_unregistered_returns_undefined_witness :
    (Orchestrator.getO 3
      { registry := [("a", 1)], statuses := [("a", HealthStatus.healthy)],
        circuits := [], failoverMap := [("x", "a")], activeFailovers := [],
        failoverCache := [] } "x").1 = Except.ok none := by
  exact get_unregistered_returns_undefined.1 3 _ "x" rfl rfl rfl rfl

lemma canExecute_false_eq (now : Nat) (cb : CircuitBreaker)
    (h : (CircuitBreaker.canExecute now cb).2 = false) :
    (CircuitBreaker.canExecute now cb).1 = cb ∧
    cb.state = CircuitState.«open» := by
  unfold CircuitBreaker.canExecute CircuitBreaker.stateGet
    CircuitBreaker.tryTransitionToHalfOpen at h ⊢
  by_cases hc : (cb.state = CircuitState.«open» &&
      CircuitBreaker.nextAttemptDue now cb.nextAttemptTime) = true
  · rw [if_pos hc] at h
    simp at h
  · rw [if_neg hc] at h ⊢
    cases hs : cb.state <;> simp_all

/-- C3: in `execute(name, op)`, resolution happens once — whenever a
circuit breaker records the operation's outcome, it is the breaker of the
very name whose handle was passed to the operation, and that name is the
single `resolveAndRoute` result; this holds for every interleaved state
mutation `f` at the operation's suspension point. -/
theorem execute_records_served_name (now now2 : Nat) (st : Orchestrator)
    (name : String) (b : Bool) (f : Orchestrator → Orchestrator) :
    (∀ r, (Orchestrator.executeO now now2 st name b f).recorded = some r →
      (Orchestrator.executeO now now2 st name b f).served = some r ∧
      (Orchestrator.resolveAndEmit now st name).1 = Except.ok r)
    ∧ (∀ s, (Orchestrator.executeO now now2 st name b f).served = some s →
      (Orchestrator.executeO now now2 st name b f).recorded = none ∨
      (Orchestrator.executeO now now2 st name b f).recorded = some s) := by
  unfold Orchestrator.executeO
  split
  next e st1 evs heq => simp
  next rn st1 evs heq =>
    split
    next hlk => simp
    next cl hlk =>
      split
      next hck => simp
      next c0 hck =>
        by_cases hopen : (CircuitBreaker.tryTransitionToHalfOpen now c0).state =
          CircuitState.«open»
        · simp [hopen]
        · cases b <;> simp [hopen, heq]

theorem execute_records_served_name_witness :
    (Orchestrator.executeO 4 5
      { registry := [("a", 1)],
        statuses := [("a", HealthStatus.healthy)],
        circuits := [("a", ⟨CircuitState.closed, 0, 0, none, 5, 100, 2⟩)],
        failoverMap := [], activeFailovers := [], failoverCache := [] }
      "a" true id).served = some "a" := by
  have h := execute_records_served_name 4 5
    { registry := [("a", 1)],
      statuses := [("a", HealthStatus.healthy)],
      circuits := [("a", ⟨CircuitState.closed, 0, 0, none, 5, 100, 2⟩)],
      failoverMap := [], activeFailovers := [], failoverCache := [] }
    "a" true id
  exact (h.1 "a" (by decide)).1

/-- The concrete orchestrator state of the C5 counterexample: one
connection `a` whose circuit is open until time 1000, and an empty
resolution cache. -/
def cbOpenX : CircuitBreaker :=
  ⟨CircuitState.«open», 5, 0, some 1000, 5, 900, 2⟩

def stX : Orchestrator :=
  { registry := [("a", 1)], statuses := [("a", HealthStatus.healthy)],
    circuits := [("a", cbOpenX)], failoverMap := [], activeFailovers := [],
    failoverCache := [] }

/-- C5 counterexample: at time 10, `get("a")` on `stX` raises the
circuit-open error, yet the error path mutates the resolution cache — it
populates the missing entry for `a` — so the claim's "does not mutate any
state (… and the resolution cache …)" is false. -/
theorem circuit_open_error_mutates_cache :
    (Orchestrator.resolveAndEmit 10 stX "a").1 =
      Except.error "Circuit open for a"
    ∧ (Orchestrator.resolveAndEmit 10 stX "a").2.1.failoverCache ≠
      stX.failoverCache := by
  constructor
  · rfl
  · decide

/-- C5 (amended): when resolution yields a name whose circuit blocks,
`get` and `execute` raise synchronously before invoking any operation
(the outcome is independent of the operation and of any interleaving);
the circuit consulted is that of the resolved name; health statuses, the
active-failover set and all circuit states are unchanged, no events are
emitted, and the resolution cache is unchanged except that a cache miss
first memoizes the freshly computed resolution for the requested name. -/
theorem circuit_open_error_path (now : Nat) (st : Orchestrator)
    (name : String) (e : String) (st' : Orchestrator) (evs : List Event)
    (h : Orchestrator.resolveAndEmit now st name = (Except.error e, st', evs)) :
    st'.statuses = st.statuses
    ∧ st'.activeFailovers = st.activeFailovers
    ∧ (∀ n, st'.circuits.lookup n = st.circuits.lookup n)
    ∧ (st'.failoverCache = st.failoverCache ∨
        (st.failoverCache.lookup name = none ∧
          ∃ r, st'.failoverCache = (name, r) :: st.failoverCache))
    ∧ evs = []
    ∧ (∃ rn isf c, st'.failoverCache.lookup name = some (rn, isf) ∧
        st.circuits.lookup rn = some c ∧
        (CircuitBreaker.canExecute now c).2 = false ∧
        e = "Circuit open for " ++ rn)
    ∧ (Orchestrator.getO now st name).1 = Except.error e
    ∧ (∀ now2 b f, (Orchestrator.executeO now now2 st name b f).served = none ∧
        (Orchestrator.executeO now now2 st name b f).result = Except.error e) := by
  have h0 := h
  have hget : (Orchestrator.getO now st name).1 = Except.error e := by
    simp [Orchestrator.getO, h0]
  have hexec : ∀ now2 b f,
      (Orchestrator.executeO now now2 st name b f).served = none ∧
      (Orchestrator.executeO now now2 st name b f).result = Except.error e := by
    intro now2 b f
    simp [Orchestrator.executeO, h0]
  cases hcl : st.failoverCache.lookup name with
  | some r =>
    cases hck : st.circuits.lookup r.1 with
    | none =>
      exfalso
      unfold Orchestrator.resolveAndEmit at h
      dsimp only at h
      simp only [hcl, hck] at h
      split at h <;> (try split at h) <;> (try split at h) <;> simp_all
    | some c =>
      rcases hce : CircuitBreaker.canExecute now c with ⟨c', ok⟩
      cases ok with
      | true =>
        exfalso
        unfold Orchestrator.resolveAndEmit at h
        dsimp only at h
        simp only [hcl, hck, hce] at h
        split at h <;> (try split at h) <;> (try split at h) <;> simp_all
      | false =>
        have hc' : c' = c := by
          have h1 := (canExecute_false_eq now c (by rw [hce])).1
          rw [hce] at h1
          exact h1
        rw [hc'] at hce
        have hred : Orchestrator.resolveAndEmit now st name =
            (Except.error ("Circuit open for " ++ r.1),
              { st with circuits := (r.1, c) :: st.circuits }, []) := by
          unfold Orchestrator.resolveAndEmit
          dsimp only
          simp [hcl, hck, hce]
        rw [hred] at h
        simp only [Prod.mk.injEq, Except.error.injEq] at h
        obtain ⟨he, hst, hevs⟩ := h
        subst hst
        subst hevs
        refine ⟨rfl, rfl, ?_, Or.inl rfl, rfl, ?_, hget, hexec⟩
        · intro n
          exact lookup_cons_shadow r.1 c st.circuits hck n
        · exact ⟨r.1, r.2, c, hcl, hck, by rw [hce], he.symm⟩
  | none =>
    cases hck : st.circuits.lookup
        (FailoverRouter.resolve (fun n => st.failoverMap.lookup n) name
          (fun n => st.statuses.lookup n)).1 with
    | none =>
      exfalso
      unfold Orchestrator.resolveAndEmit at h
      dsimp only at h
      simp only [hcl, hck] at h
      split at h <;> (try split at h) <;> (try split at h) <;> simp_all
    | some c =>
      rcases hce : CircuitBreaker.canExecute now c with ⟨c', ok⟩
      cases ok with
      | true =>
        exfalso
        unfold Orchestrator.resolveAndEmit at h
        dsimp only at h
        simp only [hcl, hck, hce] at h
        split at h <;> (try split at h) <;> (try split at h) <;> simp_all
      | false =>
        have hc' : c' = c := by
          have h1 := (canExecute_false_eq now c (by rw [hce])).1
          rw [hce] at h1
          exact h1
        rw [hc'] at hce
        have hred : Orchestrator.resolveAndEmit now st name =
            (Except.error ("Circuit open for " ++
                (FailoverRouter.resolve (fun n => st.failoverMap.lookup n) name
                  (fun n => st.statuses.lookup n)).1),
              { st with
                  circuits :=
                    ((FailoverRouter.resolve (fun n => st.failoverMap.lookup n)
                        name (fun n => st.statuses.lookup n)).1, c) ::
                      st.circuits,
                  failoverCache :=
                    (name,
                      FailoverRouter.resolve (fun n => st.failoverMap.lookup n)
                        name (fun n => st.statuses.lookup n)) ::
                      st.failoverCache }, []) := by
          unfold Orchestrator.resolveAndEmit
          dsimp only
          simp [hcl, hck, hce]
        rw [hred] at h
        simp only [Prod.mk.injEq, Except.error.injEq] at h
        obtain ⟨he, hst, hevs⟩ := h
        subst hst
        subst hevs
        refine ⟨rfl, rfl, ?_, ?_, rfl, ?_, hget, hexec⟩
        · intro n
          exact lookup_cons_shadow _ c st.circuits hck n
        · exact Or.inr ⟨rfl, _, rfl⟩
        · refine ⟨(FailoverRouter.resolve (fun n => st.failoverMap.lookup n) name
              (fun n => st.statuses.lookup n)).1,
            (FailoverRouter.resolve (fun n => st.failoverMap.lookup n) name
              (fun n => st.statuses.lookup n)).2, c, ?_, hck, by rw [hce], he.symm⟩
          simp [List.lookup]

theorem circuit_open_error_path_witness :
    (Orchestrator.resolveAndEmit 10 stX "a").2.2 = [] := by
  have h := circuit_open_error_path 10 stX "a" "Circuit open for a"
    (Orchestrator.resolveAndEmit 10 stX "a").2.1
    (Orchestrator.resolveAndEmit 10 stX "a").2.2 rfl
  exact h.2.2.2.2.1

/-- C8: whenever a health-check step emits a health-transition
notification, the resulting failover resolution cache is empty — cleared
synchronously by the listener wired in the constructor — so every
subsequent resolution recomputes from post-transition statuses. -/
theorem health_transition_clears_cache (now : Nat) (st : Orchestrator)
    (name : String) (cs : HealthStatus) (ce : Option String) :
    (some cs ≠ st.statuses.lookup name →
      (Orchestrator.runHealthCheckFor now st name cs ce).1.failoverCache = [] ∧
      Event.healthChanged name (st.statuses.lookup name) cs now ∈
        (Orchestrator.runHealthCheckFor now st name cs ce).2)
    ∧ (∀ n p c t, Event.healthChanged n p c t ∈
        (Orchestrator.runHealthCheckFor now st name cs ce).2 →
      (Orchestrator.runHealthCheckFor now st name cs ce).1.failoverCache = []) := by
  unfold Orchestrator.runHealthCheckFor
  dsimp only
  by_cases hch : some cs = st.statuses.lookup name
  · rw [if_neg (by simp [hch])]
    cases ce with
    | none => simp [hch]
    | some e => simp [hch]
  · rw [if_pos hch]
    cases ce with
    | none => simp
    | some e => simp

theorem health_transition_clears_cache_witness :
    (Orchestrator.runHealthCheckFor 9
      { registry := [("a", 1)], statuses := [("a", HealthStatus.healthy)],
        circuits := [], failoverMap := [], activeFailovers := [],
        failoverCache := [("a", ("a", false))] } "a"
      HealthStatus.unhealthy none).1.failoverCache = [] := by
  exact (health_transition_clears_cache 9 _ "a" HealthStatus.unhealthy none).1
    (by decide) |>.1

/-- C4: on a health transition to `unhealthy` for a resource with a
circuit breaker whose observed state is not open, the health-check step
forces that circuit open and emits `circuit-open` with reason
`health-check-failed`; on a transition back to `healthy` while the
observed circuit state is open, it forces the circuit closed and emits
`circuit-close` with reason `health-recovered`. -/
theorem health_sync_forces_circuit (now : Nat) (st : Orchestrator)
    (name : String) (c : CircuitBreaker) (ce : Option String)
    (hc : st.circuits.lookup name = some c) :
    (st.statuses.lookup name ≠ some HealthStatus.unhealthy →
      (CircuitBreaker.stateGet now c).2 ≠ CircuitState.«open» →
      (Orchestrator.runHealthCheckFor now st name HealthStatus.unhealthy
          ce).1.circuits.lookup name =
        some (CircuitBreaker.forceOpen now
          (CircuitBreaker.tryTransitionToHalfOpen now c)) ∧
      (CircuitBreaker.forceOpen now
        (CircuitBreaker.tryTransitionToHalfOpen now c)).state =
          CircuitState.«open» ∧
      Event.circuitOpen name (some "health-check-failed") now ∈
        (Orchestrator.runHealthCheckFor now st name HealthStatus.unhealthy ce).2)
    ∧ (st.statuses.lookup name ≠ some HealthStatus.healthy →
      (CircuitBreaker.stateGet now c).2 = CircuitState.«open» →
      (Orchestrator.runHealthCheckFor now st name HealthStatus.healthy
          ce).1.circuits.lookup name =
        some (CircuitBreaker.resetCB
          (CircuitBreaker.tryTransitionToHalfOpen now c)) ∧
      (CircuitBreaker.resetCB
        (CircuitBreaker.tryTransitionToHalfOpen now c)).state =
          CircuitState.closed ∧
      Event.circuitClose name (some "health-recovered") now ∈
        (Orchestrator.runHealthCheckFor now st name HealthStatus.healthy ce).2) := by
  constructor
  · intro hprev hso
    have hso' : (CircuitBreaker.tryTransitionToHalfOpen now c).state ≠
        CircuitState.«open» := hso
    unfold Orchestrator.runHealthCheckFor Orchestrator.syncCircuit
    dsimp only
    rw [if_pos (by simp [Ne.symm hprev])]
    simp only [hc, if_pos rfl]
    rw [if_pos hso']
    cases ce with
    | none => simp [List.lookup, CircuitBreaker.forceOpen]
    | some e => simp [List.lookup, CircuitBreaker.forceOpen]
  · intro hprev hso
    have hso' : (CircuitBreaker.tryTransitionToHalfOpen now c).state =
        CircuitState.«open» := hso
    unfold Orchestrator.runHealthCheckFor Orchestrator.syncCircuit
    dsimp only
    rw [if_pos (by simp [Ne.symm hprev])]
    simp only [hc, if_neg (by decide : ¬ (HealthStatus.healthy = HealthStatus.unhealthy))]
    cases ce with
    | none => simp [hso', List.lookup, CircuitBreaker.resetCB]
    | some e => simp [hso', List.lookup, CircuitBreaker.resetCB]

theorem health_sync_forces_circuit_witness :
    (Orchestrator.runHealthCheckFor 9
      { registry := [("a", 1)],
        statuses := [("a", HealthStatus.healthy)],
        circuits := [("a", ⟨CircuitState.closed, 0, 0, none, 5, 100, 2⟩)],
        failoverMap := [], activeFailovers := [], failoverCache := [] } "a"
      HealthStatus.unhealthy none).1.circuits.lookup "a" =
      some (CircuitBreaker.forceOpen 9
        (CircuitBreaker.tryTransitionToHalfOpen 9
          ⟨CircuitState.closed, 0, 0, none, 5, 100, 2⟩)) := by
  have h := health_sync_forces_circuit 9
    { registry := [("a", 1)],
      statuses := [("a", HealthStatus.healthy)],
      circuits := [("a", ⟨CircuitState.closed, 0, 0, none, 5, 100, 2⟩)],
      failoverMap := [], activeFailovers := [], failoverCache := [] } "a"
    ⟨CircuitState.closed, 0, 0, none, 5, 100, 2⟩ none (by decide)
  exact (h.1 (by decide) (by decide)).1

theorem parseDuration_spec_witness :
    parseDuration (String.mk (['2', '5'] ++ ['h'])) =
      Except.error "Duration too large. Maximum is 24 hours."
    ∧ parseDuration (String.mk (['1', '5', '0', '0'] ++ ['m'])) =
      Except.ok (digitsVal ['1', '5', '0', '0'] * (60 * 1000))
    ∧ parseDuration (String.mk (['0'] ++ ['s'])) =
      Except.error "Duration must be positive" := by
  refine ⟨?_, ?_, ?_⟩
  · exact parseDuration_spec.2.2.2.2.2.2.2.2 ['2', '5']
      (by decide) (by decide) (by decide)
  · exact (parseDuration_spec.2.2.2.2.2.2.2.1 ['1', '5', '0', '0']
      (by decide) (by decide) (by decide)).2.2
  · exact parseDuration_spec.2.2.2.2.2.2.1 ['0'] ['s']
      (by decide) (by decide) (by decide) (Or.inr (Or.inl rfl))

theorem open_lazy_halfOpen_witness :
    (CircuitBreaker.stateGet 106
      (CircuitBreaker.forceOpen 5
        ⟨CircuitState.closed, 0, 0, none, 5, 100, 2⟩)).2 =
      CircuitState.halfOpen := by
  have h := open_lazy_halfOpen
    ⟨CircuitState.closed, 0, 0, none, 5, 100, 2⟩ 5 106 (by decide)
  exact (h.2 (by decide)).1
